import Mathlib

/-!
Verification of the Sales_prediction_bot repository core logic
(`sales_chatbot.py`, `predict.py`) against its natural-language
specification.  The Python code is shallowly embedded: each Python
function that the claims touch is translated into an executable Lean
definition; external collaborators (the OpenAI text-understanding call,
the XGBoost regression model) are abstracted as explicit inputs, and
mutable session state (the conversation history) is threaded explicitly.
-/

namespace SalesBot

/-! ## Character and string utilities

These model the Python string primitives used by `_parse_date_input`
and friends: `str.lower`, `str.strip`, substring containment (`in`),
`str.split('-')`, `str.zfill`, decimal formatting, and the digit class
of the regex `\d` (ASCII digits, as matched on these inputs). -/

/-- ASCII digit test, the digit class used by the `\d` regex pattern
and by `int()` parsing of the matched groups. -/
def isDigitC (c : Char) : Bool :=
  decide (48 ≤ c.toNat) && decide (c.toNat ≤ 57)

/-- Model of Python `str.lower` on one character (ASCII lowering; the
inputs the claims exercise are ASCII). -/
def pyLowerC (c : Char) : Char :=
  if 65 ≤ c.toNat ∧ c.toNat ≤ 90 then Char.ofNat (c.toNat + 32) else c

/-- Model of Python whitespace (as stripped by `str.strip`). -/
def pyIsSpace (c : Char) : Bool :=
  decide (c.toNat = 32) || (decide (9 ≤ c.toNat) && decide (c.toNat ≤ 13))

/-- Model of Python `str.strip`: drop leading and trailing whitespace. -/
def pyStrip (s : List Char) : List Char :=
  ((s.dropWhile pyIsSpace).reverse.dropWhile pyIsSpace).reverse

/-- Boolean test that `pre` is a leading segment of `s`. -/
def startsWith : List Char → List Char → Bool
  | [], _ => true
  | _ :: _, [] => false
  | c :: cs, d :: ds => c = d && startsWith cs ds

/-- Model of Python substring containment `needle in hay`. -/
def containsB (needle : List Char) : List Char → Bool
  | [] => startsWith needle []
  | c :: cs => startsWith needle (c :: cs) || containsB needle cs

/-- Model of Python `str.split('-')`: split on every dash, keeping
empty segments, with `split` of the empty string being `[""]`. -/
def splitDash : List Char → List (List Char)
  | [] => [[]]
  | c :: cs =>
    match splitDash cs with
    | [] => [[c]]
    | p :: ps => if c = '-' then [] :: p :: ps else (c :: p) :: ps

/-- Model of Python `str.zfill w`: left-pad with `'0'` to width `w`. -/
def zfill (w : Nat) (s : List Char) : List Char :=
  List.replicate (w - s.length) '0' ++ s

/-- Decimal digit character for a value below 10. -/
def digitChar (n : Nat) : Char := Char.ofNat (48 + n)

/-- Fuel-driven accumulator for decimal formatting. -/
def natToCharsAux : Nat → Nat → List Char → List Char
  | 0, _, acc => acc
  | fuel + 1, n, acc =>
    if n = 0 then acc else natToCharsAux fuel (n / 10) (digitChar (n % 10) :: acc)

/-- Decimal representation of a natural number, as produced by Python
string formatting of a non-negative `int`. -/
def natToChars (n : Nat) : List Char :=
  if n = 0 then ['0'] else natToCharsAux n n []

/-- Decimal representation of a Python `int` (used by `f"{year}"`). -/
def intToChars (i : Int) : List Char :=
  if i < 0 then '-' :: natToChars i.natAbs else natToChars i.natAbs

/-- Numeric value of a digit string, as read by `int()` on a matched
digit group. -/
def natVal (s : List Char) : Nat :=
  s.foldl (fun n c => 10 * n + (c.toNat - 48)) 0

/-! ## Calendar model

`calendar.isleap` and `calendar.monthrange(year, month)[1]` from the
Python standard library, as used by `handle_query`'s month expansion.
`calendar.monthrange` raises for a month outside 1..12; that fallibility
is captured by `daysInMonthO`. -/

/-- Gregorian leap-year rule (`calendar.isleap`). -/
def isleap (y : Int) : Bool :=
  y % 4 = 0 && (!(y % 100 = 0) || y % 400 = 0)

/-- Day count of a month (`calendar.monthrange(y, m)[1]`) for `m` in 1..12. -/
def daysInMonthN (y : Int) (m : Nat) : Nat :=
  if m = 2 then (if isleap y then 29 else 28)
  else if m = 4 ∨ m = 6 ∨ m = 9 ∨ m = 11 then 30
  else 31

/-- Guarded day count: `calendar.monthrange` raises `IllegalMonthError`
outside 1..12, modeled as `none`. -/
def daysInMonthO (y m : Int) : Option Nat :=
  if 1 ≤ m ∧ m ≤ 12 then some (daysInMonthN y m.toNat) else none

/-! ## Date parsing and formatting

Model of `datetime.strptime(s, "%Y-%m-%d")` (exactly four year digits,
one or two month/day digits, and a real calendar date — CPython's
`_strptime` regex plus the `datetime` constructor's range checks) and of
`strftime("%Y-%m-%d")` (zero-padded fields). -/

/-- Calendar date as year/month/day numbers. -/
structure DateYMD where
  year : Nat
  month : Nat
  day : Nat
deriving DecidableEq, Repr

/-- Every character is an ASCII digit. -/
def allDigits (s : List Char) : Bool := s.all isDigitC

/-- Model of `datetime.strptime(s, "%Y-%m-%d")`, `none` when Python
raises `ValueError`. -/
def parseYMD (s : List Char) : Option DateYMD :=
  match splitDash s with
  | [ys, ms, ds] =>
    if ys.length = 4 && allDigits ys
        && (ms.length = 1 || ms.length = 2) && allDigits ms
        && (ds.length = 1 || ds.length = 2) && allDigits ds then
      let y := natVal ys
      let m := natVal ms
      let d := natVal ds
      if 1 ≤ y && 1 ≤ m && m ≤ 12 && 1 ≤ d && d ≤ daysInMonthN (y : Int) m then
        some ⟨y, m, d⟩
      else none
    else none
  | _ => none

/-- Model of `strftime("%Y-%m-%d")` on a parsed date. -/
def formatDate (dt : DateYMD) : List Char :=
  zfill 4 (natToChars dt.year) ++ '-' ::
    (zfill 2 (natToChars dt.month) ++ '-' :: zfill 2 (natToChars dt.day))

/-! ## Date Normalizer: `_parse_date_input`

Line-by-line model of `SalesPredictionChatbot._parse_date_input`.  The
regex `re.match(r"\d{1,2}-\d{1,2}-\d{4}", s)` is a prefix match; it
succeeds exactly when the string starts with 1-2 digits, a dash, 1-2
digits, a dash and 4 digits, which `matchDMY` decides by trying the four
group-length combinations. -/

/-- Consume exactly `k` leading ASCII digits, returning the rest. -/
def takeDigits : Nat → List Char → Option (List Char)
  | 0, s => some s
  | _ + 1, [] => none
  | k + 1, c :: s => if isDigitC c then takeDigits k s else none

/-- Consume one leading dash, returning the rest. -/
def expectDash : List Char → Option (List Char)
  | [] => none
  | c :: s => if c = '-' then some s else none

/-- One alternative of the `\d{1,2}-\d{1,2}-\d{4}` prefix pattern with
group widths `a` and `b`. -/
def dmyShape (a b : Nat) (s : List Char) : Bool :=
  (((((takeDigits a s).bind expectDash).bind
      (takeDigits b)).bind expectDash).bind (takeDigits 4)).isSome

/-- Model of `re.match(r"\d{1,2}-\d{1,2}-\d{4}", s) is not None`. -/
def matchDMY (s : List Char) : Bool :=
  dmyShape 2 2 s || dmyShape 2 1 s || dmyShape 1 2 s || dmyShape 1 1 s

/-- The `[f"{year}-05-{day:02d}" for day in range(1, 32)]` expansion,
with the year resolved from the text (`2024` when mentioned, else the
current year), shared verbatim by both "may" branches. -/
def mayDates (nowYear : Nat) (s : List Char) : List (List Char) :=
  let year := if containsB "2024".toList s then 2024 else nowYear
  (List.range 31).map
    (fun i => natToChars year ++ '-' :: '0' :: '5' :: '-' :: zfill 2 (natToChars (i + 1)))

/-- The trailing "standard formats" section of `_parse_date_input`:
`strptime` then reformat, or an empty list on `ValueError`. -/
def strptimeStep (s : List Char) : List (List Char) :=
  match parseYMD s with
  | some dt => [formatDate dt]
  | none => []

/-- Model of `SalesPredictionChatbot._parse_date_input`.  `nowYear`
stands for `datetime.now().year`.  An empty input is falsy in Python and
returns `[]` immediately; otherwise the string is lowercased and
stripped, then the branches apply in source order. -/
def parseDateInput (nowYear : Nat) (s0 : List Char) : List (List Char) :=
  if s0 = [] then []
  else
    let s := pyStrip (s0.map pyLowerC)
    if (containsB "whole".toList s || containsB "entire".toList s
        || containsB "all of".toList s) && containsB "may".toList s then
      mayDates nowYear s
    else if containsB "may".toList s then
      mayDates nowYear s
    else if matchDMY s then
      match splitDash s with
      | [d, m, y] => [y ++ '-' :: (zfill 2 m ++ '-' :: zfill 2 d)]
      | _ => strptimeStep s
    else strptimeStep s

/-! ## Data model

`SalesRecord` is one row of `sales_data_with_mapped_ids_v3.csv` after
the `ORDERDATE` column is parsed; `ParameterRecord` is the JSON object
returned by the text-understanding collaborator (absent and
JSON-`null` fields are both `none`); `ConversationTurn` is one entry of
`self.conversation_history`; `Chatbot` is the session state built by
`_load_data_context` plus the history. -/

/-- One row of the sales dataset (identifier, date, quantity, and the
precomputed feature columns consumed only by the regression model). -/
structure SalesRecord where
  itemId : Int
  orderDate : DateYMD
  totalSold : Int
  day : Int
  month : Int
  year : Int
  dayNum : Int
  isWeekend : Int
  festivalEnc : Int
  rolling3 : ℚ
deriving DecidableEq, Repr

/-- The ordered 8-field feature vector `predict.py` hands to the model. -/
def featureVector (r : SalesRecord) : List ℚ :=
  [r.itemId, r.day, r.month, r.year, r.dayNum, r.isWeekend, r.festivalEnc, r.rolling3]

/-- Structured output of intent extraction, mirroring the JSON shape
requested from the collaborator. -/
structure ParameterRecord where
  query_type : Option String
  item_id : Option Int
  date : Option String
  date_range : Option (List String)
  month : Option Int
  year : Option Int
  period_description : Option String
  confidence : Option ℚ
  missing_info : List String
  clarification_needed : Option String
deriving DecidableEq, Repr

/-- Outcome of `predict.py`'s `predict_sales`, one constructor per
return statement. -/
inductive PredictResult where
  | fileError
  | invalidDateFmt
  | noHistoricalData (item : Int) (dateStr : String)
  | prediction (actual : Int) (predicted : Int)
deriving DecidableEq, Repr

/-- One appended entry of `self.conversation_history`. -/
structure ConversationTurn where
  query : String
  parameters : ParameterRecord
  result : PredictResult
  response : String
deriving DecidableEq, Repr

/-- Session state: the loaded dataset (`none` when `_load_data_context`
failed), the sorted list of available item ids, and the history. -/
structure Chatbot where
  df : Option (List SalesRecord)
  available_items : List Int
  conversation_history : List ConversationTurn
deriving DecidableEq, Repr

/-- Response of `handle_query`, one constructor per return site of
`handle_query` and of the operations it dispatches to, with the data
interpolated into the Python message kept as payload. -/
inductive BotResponse where
  | clarification (text : String)
  | dataUnavailable
  | noDataPeriod
  | noSalesData
  | mostSold (top : Int) (total : Int) (top5 : List (Int × Int)) (periodDesc : String)
  | noDataCriteria
  | summaryStats (item : Option Int) (dates : Option (List String))
      (total : Int) (avg : ℚ) (mx : Int) (mn : Int)
  | analysisError
  | specifyPeriod
  | itemNotAvailable (item : Option Int) (samples : List Int) (truncated : Bool)
  | missingDate
  | invalidDateFormatMsg
  | rendered (text : String)
  | processingError
deriving DecidableEq, Repr

/-! ## Prediction delegate: `predict.py`

`predict_sales` loads the same CSV (here the shared `df`), parses the
input date with `strptime("%Y-%m-%d")`, selects the matching row, and
forwards the row's precomputed feature vector to the external
regression model `mp`, rounding its float output with Python's
banker-rounding `int(round(x))`. -/

/-- The rational one half (the literal `0.5`), given in reduced form so
that comparisons against it compute by kernel reduction. -/
def halfQ : ℚ := ⟨1, 2, by norm_num, Nat.coprime_one_left 2⟩

/-- Python `int(round(x))`: round half to even. -/
def pyRound (q : ℚ) : Int :=
  let f := ⌊q⌋
  let r := q - f
  if r < halfQ then f
  else if halfQ < r then f + 1
  else if f % 2 = 0 then f else f + 1

/-- Model of `predict.predict_sales`.  `df = none` is the
required-file-missing / load-failure early return. -/
def predict_sales (df : Option (List SalesRecord)) (mp : List ℚ → ℚ)
    (itemId : Int) (dateStr : String) : PredictResult :=
  match df with
  | none => .fileError
  | some rows =>
    match parseYMD dateStr.toList with
    | none => .invalidDateFmt
    | some d =>
      match rows.filter (fun r => decide (r.itemId = itemId) && decide (r.orderDate = d)) with
      | [] => .noHistoricalData itemId dateStr
      | r :: _ => .prediction r.totalSold (pyRound (mp (featureVector r)))

/-- The strings produced by `predict_sales`, used by the rendering
fallback (the file-error message is abbreviated: in Python it embeds
the missing path). -/
def renderPredict : PredictResult → String
  | .fileError => "Error: Required file not found."
  | .invalidDateFmt => "Error: Invalid date format. Please use 'YYYY-MM-DD'."
  | .noHistoricalData i ds =>
    "No historical data found for Mapped ITEMID " ++ toString i ++ " on " ++ ds ++ "."
  | .prediction a p => "Actual: " ++ toString a ++ ", Predicted: " ++ toString p

/-! ## Analytics: `find_most_sold_item`

`df.groupby('ITEMID_Mapped')['TOTAL_ITEMSOLD'].sum()` yields one sum
per item id with the index sorted ascending (`groupby(sort=True)`).
`.sort_values(ascending=False)` routes through pandas `nargsort`, which
for a descending sort reverses the values, stably argsorts them
ascending, and reverses the resulting index order again, so equal
values keep their original ascending-index order; the whole is modeled
as `List.reverse`, a stable ascending insertion sort, and a final
`List.reverse`. -/

/-- Insert into an ascending duplicate-free key list (the groupby
index). -/
def insertKey (x : Int) : List Int → List Int
  | [] => [x]
  | y :: ys =>
    if x < y then x :: y :: ys
    else if x = y then y :: ys
    else y :: insertKey x ys

/-- Ascending duplicate-free list of the item ids occurring in `l`. -/
def sortedKeys (l : List Int) : List Int := l.foldr insertKey []

/-- Total quantity sold for one item id. -/
def itemSum (rows : List SalesRecord) (k : Int) : Int :=
  ((rows.filter (fun r => decide (r.itemId = k))).map (·.totalSold)).sum

/-- The grouped-and-summed series as (item id, summed quantity) pairs,
index ascending. -/
def sumsByItem (rows : List SalesRecord) : List (Int × Int) :=
  (sortedKeys (rows.map (·.itemId))).map (fun k => (k, itemSum rows k))

/-- Stable insertion (by the summed value) used to model the ascending
argsort. -/
def insertLe (x : Int × Int) : List (Int × Int) → List (Int × Int)
  | [] => [x]
  | y :: ys => if x.2 ≤ y.2 then x :: y :: ys else y :: insertLe x ys

/-- Stable ascending sort by the summed value. -/
def isortByVal : List (Int × Int) → List (Int × Int)
  | [] => []
  | x :: xs => insertLe x (isortByVal xs)

/-- pandas `Series.sort_values(ascending=False)` (via `nargsort`): the
values are reversed, stably argsorted ascending, and the resulting
index order reversed again — so equal values keep their original
(ascending groupby-index) order. -/
def sortDescByVal (l : List (Int × Int)) : List (Int × Int) :=
  (isortByVal l.reverse).reverse

/-- The ranked (item id, total) series of `find_most_sold_item`. -/
def rankedItems (rows : List SalesRecord) : List (Int × Int) :=
  sortDescByVal (sumsByItem rows)

/-- Month filter `df[df['ORDERDATE'].dt.month == month]`, applied only
when `month` is truthy in Python (`if month:`). -/
def filterByMonth (rows : List SalesRecord) : Option Int → List SalesRecord
  | none => rows
  | some m =>
    if m = 0 then rows
    else rows.filter (fun r => decide ((r.orderDate.month : Int) = m))

/-- Year filter `df[df['ORDERDATE'].dt.year == year]`, applied only
when `year` is truthy. -/
def filterByYear (rows : List SalesRecord) : Option Int → List SalesRecord
  | none => rows
  | some y =>
    if y = 0 then rows
    else rows.filter (fun r => decide ((r.orderDate.year : Int) = y))

/-- Model of `SalesPredictionChatbot.find_most_sold_item` (the unused
`period` argument is kept for signature fidelity). -/
def find_most_sold_item (df : Option (List SalesRecord)) (_period : Option String)
    (month year : Option Int) : BotResponse :=
  match df with
  | none => .dataUnavailable
  | some rows =>
    let filtered := filterByYear (filterByMonth rows month) year
    if filtered = [] then .noDataPeriod
    else
      match rankedItems filtered with
      | [] => .noSalesData
      | (topItem, topSum) :: _ =>
        let top5 := (rankedItems filtered).take 5
        let periodDesc :=
          match year with
          | some yv =>
            if month = some 5 ∧ yv ≠ 0 then "May " ++ toString yv
            else "the specified period"
          | none => "the specified period"
        .mostSold topItem topSum top5 periodDesc

/-! ## Analytics: `get_sales_summary` -/

/-- Fold maximum of a nonempty quantity list (pandas `.max()`). -/
def listMaxI (x : Int) (xs : List Int) : Int := xs.foldl max x

/-- Fold minimum of a nonempty quantity list (pandas `.min()`). -/
def listMinI (x : Int) (xs : List Int) : Int := xs.foldl min x

/-- Item filter `df[df['ITEMID_Mapped'] == item_id]`, applied only when
`item_id` is truthy (`if item_id:`). -/
def filterByItem (rows : List SalesRecord) : Option Int → List SalesRecord
  | none => rows
  | some i =>
    if i = 0 then rows else rows.filter (fun r => decide (r.itemId = i))

/-- Model of `SalesPredictionChatbot.get_sales_summary`.  A non-empty
date list is converted with `pd.to_datetime` (modeled for the canonical
strings this code produces; an unparsable entry raises and is caught by
the method's `except`, returning the "Error analyzing sales data"
string, here `analysisError`), then rows are kept whose date is a
member. The date-membership filter is `filterByDates`. -/
def filterByDates (rows : List SalesRecord) (dObjs : List DateYMD) : List SalesRecord :=
  rows.filter (fun r => dObjs.contains r.orderDate)

/-- Model of `SalesPredictionChatbot.get_sales_summary` (continued from
`filterByDates`). -/
def get_sales_summary (df : Option (List SalesRecord)) (item_id : Option Int)
    (dates : Option (List String)) : BotResponse :=
  match df with
  | none => .dataUnavailable
  | some rows =>
    let r1 := filterByItem rows item_id
    let step : Option (List SalesRecord) :=
      match dates with
      | none => some r1
      | some [] => some r1
      | some (d :: ds) =>
        match (d :: ds).mapM (fun s => parseYMD s.toList) with
        | none => none
        | some dObjs => some (filterByDates r1 dObjs)
    match step with
    | none => .analysisError
    | some filtered =>
      match filtered with
      | [] => .noDataCriteria
      | f :: fs =>
        let sold := (f :: fs).map (·.totalSold)
        .summaryStats item_id dates sold.sum ((sold.sum : ℚ) / (sold.length : ℚ))
          (listMaxI f.totalSold (fs.map (·.totalSold)))
          (listMinI f.totalSold (fs.map (·.totalSold)))

/-! ## Intent Extractor: `extract_parameters`

The OpenAI round trip and the JSON recovery are external effects; their
outcome is the explicit input.  `parsed p` stands for a structured
record recovered from the response (directly or by the embedded-object
regex scan); `unrecoverable` for a response with no recoverable object
(the raised `ValueError`); `callFailed` for any transport error.  The
surrounding `except Exception` turns both failure outcomes into the
fixed fallback record — the function is total, no exception escapes. -/

/-- Outcome of the collaborator call plus JSON recovery. -/
inductive ExtractionOutcome where
  | callFailed
  | parsed (p : ParameterRecord)
  | unrecoverable
deriving DecidableEq, Repr

/-- The literal fallback dictionary built in the `except` block of
`extract_parameters`. -/
def fallbackRecord : ParameterRecord :=
  ⟨some "prediction", none, none, none, none, none, none, some 0,
    ["item_id", "date"],
    some "I couldn't understand your request. Please specify the item ID and date for sales prediction."⟩

/-- Model of `SalesPredictionChatbot.extract_parameters`. -/
def extract_parameters : ExtractionOutcome → ParameterRecord
  | .parsed p => p
  | .callFailed => fallbackRecord
  | .unrecoverable => fallbackRecord

/-! ## Query Dispatcher: `handle_query`

The model takes the extracted record `p` (output of
`extract_parameters`), the current year, the regression model `mp`, the
response-rendering collaborator outcome `render` (`none` = the OpenAI
call in `generate_response` failed, triggering its fallback string),
and returns the response, the list of Analytics Operations invoked, and
the new conversation history. -/

/-- The generic fallback used when `clarification_needed` is absent. -/
def genericClarification : String :=
  "I need more information. Please specify your request clearly."

/-- The confidence / missing-info gate of `handle_query`:
`parameters.get('confidence', 0) < 0.5 or parameters.get('missing_info')`. -/
def gateFailsB (p : ParameterRecord) : Bool :=
  decide (p.confidence.getD 0 < halfQ) || decide (p.missing_info ≠ [])

/-- `f"{year}-{month:02d}-{day:02d}"` for each day of the month, the
dispatcher's month expansion (`days` comes from `calendar.monthrange`). -/
def monthDatesL (y : Int) (m : Nat) (days : Nat) : List String :=
  (List.range days).map
    (fun i => String.mk (intToChars y ++ '-' ::
      (zfill 2 (natToChars m) ++ '-' :: zfill 2 (natToChars (i + 1)))))

/-- `dates = [parameters.get('date')]` when the date field is truthy,
else `None` (the `elif parameters.get('date')` arm). -/
def datesFromDateField : Option String → Option (List String)
  | some d => if d = "" then none else some [d]
  | none => none

/-- The `else` (prediction) arm of `handle_query`'s dispatch: validate
the item id against `available_items`, require a truthy date, validate
it with `strptime`, run `predict_sales`, render, and append the turn. -/
def predictionBranch (bot : Chatbot) (mp : List ℚ → ℚ) (render : Option String)
    (userQuery : String) (p : ParameterRecord) :
    BotResponse × List String × List ConversationTurn :=
  let hist := bot.conversation_history
  let notAvail : BotResponse :=
    .itemNotAvailable p.item_id (bot.available_items.take 10)
      (decide (bot.available_items.length > 10))
  match p.item_id with
  | none => (notAvail, [], hist)
  | some i =>
    if bot.available_items.contains i then
      match p.date with
      | none => (.missingDate, [], hist)
      | some d =>
        if d = "" then (.missingDate, [], hist)
        else
          match parseYMD d.toList with
          | none => (.invalidDateFormatMsg, [], hist)
          | some _ =>
            let res := predict_sales bot.df mp i d
            let response := render.getD ("Here are your prediction results: " ++ renderPredict res)
            (.rendered response, ["predict_sales"], hist ++ [⟨userQuery, p, res, response⟩])
    else (notAvail, [], hist)

/-- The `most_sold` arm: `month` is passed through, `year` defaults to
the current year via `dict.get`. -/
def mostSoldBranch (bot : Chatbot) (nowYear : Int) (p : ParameterRecord) :
    BotResponse × List String :=
  (find_most_sold_item bot.df p.period_description p.month (some (p.year.getD nowYear)),
    ["find_most_sold_item"])

/-- The `summary` arm: a truthy month and year are expanded through
`calendar.monthrange` into the full list of that month's dates,
otherwise a truthy single date is used; either way `get_sales_summary`
is invoked. -/
def summaryBranch (bot : Chatbot) (nowYear : Int) (p : ParameterRecord) :
    BotResponse × List String :=
  let yr := p.year.getD nowYear
  match p.month with
  | some m =>
    if m ≠ 0 ∧ yr ≠ 0 then
      match daysInMonthO yr m with
      | some days =>
        (get_sales_summary bot.df p.item_id (some (monthDatesL yr m.toNat days)),
          ["get_sales_summary"])
      | none => (.processingError, [])
    else
      (get_sales_summary bot.df p.item_id (datesFromDateField p.date),
        ["get_sales_summary"])
  | none =>
    (get_sales_summary bot.df p.item_id (datesFromDateField p.date),
      ["get_sales_summary"])

/-- The `analysis` arm: like `summary` but without the single-date
fallback — absent a truthy month and year it asks for a period. -/
def analysisBranch (bot : Chatbot) (nowYear : Int) (p : ParameterRecord) :
    BotResponse × List String :=
  let yr := p.year.getD nowYear
  match p.month with
  | some m =>
    if m ≠ 0 ∧ yr ≠ 0 then
      match daysInMonthO yr m with
      | some days =>
        (get_sales_summary bot.df p.item_id (some (monthDatesL yr m.toNat days)),
          ["get_sales_summary"])
      | none => (.processingError, [])
    else (.specifyPeriod, [])
  | none => (.specifyPeriod, [])

/-- Model of `SalesPredictionChatbot.handle_query` after extraction:
the gate, then dispatch on `query_type` with `'prediction'` as the
`dict.get` default and the prediction arm as the `else`.  The three
analytic arms never touch the history. -/
def handle_query (bot : Chatbot) (nowYear : Int) (mp : List ℚ → ℚ)
    (render : Option String) (userQuery : String) (p : ParameterRecord) :
    BotResponse × List String × List ConversationTurn :=
  let hist := bot.conversation_history
  if gateFailsB p then
    (.clarification (p.clarification_needed.getD genericClarification), [], hist)
  else
    let qt := p.query_type.getD "prediction"
    if qt = "most_sold" then
      ((mostSoldBranch bot nowYear p).1, (mostSoldBranch bot nowYear p).2, hist)
    else if qt = "summary" then
      ((summaryBranch bot nowYear p).1, (summaryBranch bot nowYear p).2, hist)
    else if qt = "analysis" then
      ((analysisBranch bot nowYear p).1, (analysisBranch bot nowYear p).2, hist)
    else predictionBranch bot mp render userQuery p

/-! ## Claim-side characterizations and shared fixtures -/

/-- The prediction arm's item validation, as a Boolean: the extracted
item id is present and a member of `available_items`. -/
def itemOkB (bot : Chatbot) (p : ParameterRecord) : Bool :=
  match p.item_id with
  | some i => bot.available_items.contains i
  | none => false

/-- The prediction arm's date validation, as a Boolean: the extracted
date is truthy and parses with `strptime("%Y-%m-%d")`. -/
def dateOkB (p : ParameterRecord) : Bool :=
  match p.date with
  | some d => !decide (d = "") && (parseYMD d.toList).isSome
  | none => false

/-- Holds exactly when `handle_query` reaches and completes the
prediction operation (gate passed, dispatched to the `else` arm, item
and date valid). -/
def executesPredictionB (bot : Chatbot) (p : ParameterRecord) : Bool :=
  !gateFailsB p
    && !decide (p.query_type.getD "prediction" = "most_sold")
    && !decide (p.query_type.getD "prediction" = "summary")
    && !decide (p.query_type.getD "prediction" = "analysis")
    && itemOkB bot p && dateOkB p

/-- The conversation turn appended by a completed prediction. -/
def theTurn (bot : Chatbot) (mp : List ℚ → ℚ) (render : Option String)
    (userQuery : String) (p : ParameterRecord) : ConversationTurn :=
  let res := predict_sales bot.df mp (p.item_id.getD 0) (p.date.getD "")
  let response := render.getD ("Here are your prediction results: " ++ renderPredict res)
  ⟨userQuery, p, res, response⟩

/-- A concrete dataset row for the concrete instantiations below. -/
def sampleRow (i : Int) (y m d : Nat) (sold : Int) : SalesRecord :=
  ⟨i, ⟨y, m, d⟩, sold, d, m, y, 0, 0, 0, 0⟩

/-- A concrete session: one row (item 3 sold 5 on 2024-05-01), item 3
available, empty history. -/
def botA : Chatbot := ⟨some [sampleRow 3 2024 5 1 5], [3], []⟩

/-- Concrete records used by the concrete instantiations. -/
def pPred : ParameterRecord :=
  ⟨some "prediction", some 3, some "2024-05-01", none, none, none, none, some 1, [], none⟩

/-- A gate-passing prediction record whose date field is the empty
string (falsy in Python). -/
def pEmptyDate : ParameterRecord :=
  ⟨some "prediction", some 3, some "", none, none, none, none, some 1, [], none⟩

/-- A gate-passing prediction record whose date does not parse. -/
def pBadDate : ParameterRecord :=
  ⟨some "prediction", some 3, some "05/2024", none, none, none, none, some 1, [], none⟩

/-- A gate-passing summary record for February 2024. -/
def pFeb : ParameterRecord :=
  ⟨some "summary", none, none, none, some 2, some 2024, none, some 1, [], none⟩

/-! ## Ranking order of `find_most_sold_item`

`argsortOrd` is the order the stable ascending argsort realizes on the
REVERSED groupby series (whose index is strictly descending): value
ascending, with ties keeping that reversed order, hence item id
descending.  Reversing once more yields `rankOrd`, the order of the
ranked output: sum descending with ties in ascending item-id order. -/

/-- Value ascending; on equal values, item id descending. -/
def argsortOrd (a b : Int × Int) : Prop := a.2 < b.2 ∨ (a.2 = b.2 ∧ b.1 < a.1)

/-- Sum descending; on equal sums, item id ascending — the order of the
ranked series. -/
def rankOrd (a b : Int × Int) : Prop := b.2 < a.2 ∨ (a.2 = b.2 ∧ a.1 < b.1)

/-! ## Lemmas and claim theorems -/

/-! ### Facts about decimal formatting -/

theorem natToCharsAux_zero (fuel : Nat) (acc : List Char) :
    natToCharsAux fuel 0 acc = acc := by
  cases fuel <;> simp [natToCharsAux]

theorem natToCharsAux_out (n : Nat) (acc : List Char) :
    natToCharsAux 0 n acc = acc := rfl

theorem natToCharsAux_step (fuel n : Nat) (acc : List Char) (h : n ≠ 0) :
    natToCharsAux (fuel + 1) n acc
      = natToCharsAux fuel (n / 10) (digitChar (n % 10) :: acc) := by
  simp [natToCharsAux, h]

theorem natToCharsAux_fuel (k : Nat) :
    ∀ fuel n acc, n < 10 ^ k → k ≤ fuel →
      natToCharsAux fuel n acc = natToCharsAux k n acc := by
  induction k with
  | zero =>
    intro fuel n acc hn _
    interval_cases n
    simp [natToCharsAux_zero]
  | succ k ih =>
    intro fuel n acc hn hf
    rcases Nat.exists_eq_add_of_le hf with ⟨e, rfl⟩
    by_cases h0 : n = 0
    · subst h0; simp [natToCharsAux_zero]
    · have hlt : n / 10 < 10 ^ k := by
        rw [Nat.div_lt_iff_lt_mul (by norm_num)]
        calc n < 10 ^ (k + 1) := hn
        _ = 10 ^ k * 10 := by ring
      rw [show k + 1 + e = (k + e) + 1 by omega]
      rw [natToCharsAux_step _ _ _ h0, natToCharsAux_step _ _ _ h0]
      exact ih _ _ _ hlt (Nat.le_add_right _ _)

theorem natToChars_eq_one (n : Nat) (h1 : 1 ≤ n) (h2 : n < 10) :
    natToChars n = [digitChar n] := by
  have hne : n ≠ 0 := by omega
  rw [natToChars, if_neg hne,
    natToCharsAux_fuel 1 n n [] (by simpa using h2) h1,
    natToCharsAux_step _ _ _ hne, Nat.div_eq_of_lt h2,
    Nat.mod_eq_of_lt h2, natToCharsAux_zero]

theorem natToChars_eq_two (n : Nat) (h1 : 10 ≤ n) (h2 : n < 100) :
    natToChars n = [digitChar (n / 10), digitChar (n % 10)] := by
  have hne : n ≠ 0 := by omega
  have hd : n / 10 ≠ 0 := by omega
  rw [natToChars, if_neg hne,
    natToCharsAux_fuel 2 n n [] (by simpa using h2) (by omega),
    natToCharsAux_step _ _ _ hne, natToCharsAux_step _ _ _ hd,
    natToCharsAux_out, Nat.mod_eq_of_lt (by omega : n / 10 < 10)]

theorem natToChars_eq_four (n : Nat) (h1 : 1000 ≤ n) (h2 : n < 10000) :
    natToChars n = [digitChar (n / 1000), digitChar (n / 100 % 10),
      digitChar (n / 10 % 10), digitChar (n % 10)] := by
  have hne : n ≠ 0 := by omega
  have hd1 : n / 10 ≠ 0 := by omega
  have hd2 : n / 10 / 10 ≠ 0 := by omega
  have hd3 : n / 10 / 10 / 10 ≠ 0 := by omega
  rw [natToChars, if_neg hne,
    natToCharsAux_fuel 4 n n [] (by simpa using h2) (by omega),
    natToCharsAux_step _ _ _ hne, natToCharsAux_step _ _ _ hd1,
    natToCharsAux_step _ _ _ hd2, natToCharsAux_step _ _ _ hd3,
    natToCharsAux_out]
  have e3 : n / 10 / 10 / 10 = n / 1000 := by
    rw [Nat.div_div_eq_div_mul, Nat.div_div_eq_div_mul]
  have e2 : n / 10 / 10 = n / 100 := by rw [Nat.div_div_eq_div_mul]
  rw [e3, e2, Nat.mod_eq_of_lt (by omega : n / 1000 < 10)]

theorem isDigitC_digitChar (k : Nat) (h : k < 10) :
    isDigitC (digitChar k) = true := by
  interval_cases k <;> decide

theorem digitChar_ne_dash (k : Nat) (h : k < 10) : digitChar k ≠ '-' := by
  interval_cases k <;> decide

theorem digitChar_toNat (k : Nat) (h : k < 10) :
    (digitChar k).toNat = 48 + k := by
  interval_cases k <;> decide

theorem halfQ_eq : halfQ = 1 / 2 := by
  rw [halfQ, Rat.mk'_eq_divInt, Rat.divInt_eq_div]
  norm_num

/-! ## Claim theorems -/

/-- C1: for every ParameterRecord, if its confidence (defaulting to 0)
is below 0.5 or its `missing_info` is non-empty, `handle_query` returns
the record's `clarification_needed` text (or the generic fallback when
that field is absent), invokes no Analytics Operation (the invocation
trace is empty), and leaves the history untouched. -/
theorem gate_blocks_low_confidence_or_missing
    (bot : Chatbot) (nowYear : Int) (mp : List ℚ → ℚ) (render : Option String)
    (q : String) (p : ParameterRecord)
    (h : p.confidence.getD 0 < 1 / 2 ∨ p.missing_info ≠ []) :
    handle_query bot nowYear mp render q p =
      (.clarification (p.clarification_needed.getD genericClarification), [],
        bot.conversation_history) := by
  have hg : gateFailsB p = true := by
    rcases h with h | h
    · have h2 : p.confidence.getD 0 < halfQ := by rw [halfQ_eq]; exact h
      simp [gateFailsB, h2]
    · simp [gateFailsB, h]
  simp [handle_query, hg]

/-- Witness for C1: a record with confidence 0.49 and empty
`missing_info` is gated out and answered with its clarification text. -/
theorem gate_blocks_low_confidence_or_missing_witness :
    handle_query ⟨none, [], []⟩ 2025 (fun _ => 0) none "q"
        ⟨some "most_sold", none, none, none, none, none, none,
          some ⟨49, 100, by norm_num, by norm_num⟩, [], some "Which item did you mean?"⟩ =
      (.clarification "Which item did you mean?", [], []) :=
  gate_blocks_low_confidence_or_missing _ _ _ _ _ _
    (Or.inl (by
      show (⟨49, 100, by norm_num, by norm_num⟩ : ℚ) < 1 / 2
      rw [Rat.mk'_eq_divInt, Rat.divInt_eq_div]
      norm_num))

/-- C6: when the collaborator call fails or no structured object can be
recovered from its response, `extract_parameters` returns (it is total
— no exception propagates) the fixed fallback record with query type
"prediction", confidence 0, `missing_info` exactly item_id and date,
and a clarification prompt. -/
theorem extractor_fails_soft (o : ExtractionOutcome)
    (h : o = .callFailed ∨ o = .unrecoverable) :
    extract_parameters o = fallbackRecord ∧
      fallbackRecord.query_type = some "prediction" ∧
      fallbackRecord.confidence = some 0 ∧
      fallbackRecord.missing_info = ["item_id", "date"] ∧
      fallbackRecord.item_id = none ∧ fallbackRecord.date = none ∧
      fallbackRecord.clarification_needed =
        some "I couldn't understand your request. Please specify the item ID and date for sales prediction." := by
  rcases h with rfl | rfl <;> exact ⟨rfl, rfl, rfl, rfl, rfl, rfl, rfl⟩

/-- Witness for C6: the transport-failure outcome produces the fallback
record. -/
theorem extractor_fails_soft_witness :
    extract_parameters .callFailed = fallbackRecord ∧
      fallbackRecord.query_type = some "prediction" ∧
      fallbackRecord.confidence = some 0 ∧
      fallbackRecord.missing_info = ["item_id", "date"] ∧
      fallbackRecord.item_id = none ∧ fallbackRecord.date = none ∧
      fallbackRecord.clarification_needed =
        some "I couldn't understand your request. Please specify the item ID and date for sales prediction." :=
  extractor_fails_soft .callFailed (Or.inl rfl)

/-- C7: when the item/date filter of `get_sales_summary` matches no
row, the distinct no-data outcome is returned — the statistics branch
(and its mean over the empty set) is never reached, and the no-data
outcome is distinct from every computed-statistics outcome (in
particular from a computed total of zero). -/
theorem summary_empty_filter_no_data (rows : List SalesRecord) (item_id : Option Int)
    (d : String) (ds : List String) (dObjs : List DateYMD)
    (hparse : (d :: ds).mapM (fun s => parseYMD s.toList) = some dObjs)
    (hempty : filterByDates (filterByItem rows item_id) dObjs = []) :
    get_sales_summary (some rows) item_id (some (d :: ds)) = .noDataCriteria ∧
      ∀ i dd t a mx mn, BotResponse.noDataCriteria ≠ .summaryStats i dd t a mx mn := by
  refine ⟨?_, fun _ _ _ _ _ _ h => nomatch h⟩
  simp only [get_sales_summary, hparse, hempty]

/-- Witness for C7: item 3 with date 2024-05-02 matches no row of the
one-row dataset and yields the no-data outcome. -/
theorem summary_empty_filter_no_data_witness :
    get_sales_summary (some [sampleRow 3 2024 5 1 5]) (some 3) (some ["2024-05-02"]) =
      .noDataCriteria :=
  (summary_empty_filter_no_data _ _ _ _ [⟨2024, 5, 2⟩] (by decide) (by decide)).1

/-- C8: for a parseable date with no matching historical row,
`predict_sales` returns the no-historical-data outcome as a normal
value (the function is total — nothing is raised), and the result is
independent of the regression collaborator, which is therefore never
consulted. -/
theorem predict_no_history_soft (rows : List SalesRecord) (mp : List ℚ → ℚ)
    (itemId : Int) (dateStr : String) (dt : DateYMD)
    (hdate : parseYMD dateStr.toList = some dt)
    (hnone : rows.filter (fun r => decide (r.itemId = itemId) && decide (r.orderDate = dt)) = []) :
    predict_sales (some rows) mp itemId dateStr = .noHistoricalData itemId dateStr ∧
      ∀ mp2 : List ℚ → ℚ, predict_sales (some rows) mp2 itemId dateStr =
        predict_sales (some rows) mp itemId dateStr := by
  have key : ∀ m : List ℚ → ℚ,
      predict_sales (some rows) m itemId dateStr = .noHistoricalData itemId dateStr := by
    intro m
    simp only [predict_sales, hdate, hnone]
  exact ⟨key mp, fun mp2 => (key mp2).trans (key mp).symm⟩

/-- Witness for C8: item 9 has no row on 2024-05-01 in the one-row
dataset; the result is the no-historical-data value. -/
theorem predict_no_history_soft_witness :
    predict_sales (some [sampleRow 3 2024 5 1 5]) (fun _ => 0) 9 "2024-05-01" =
      .noHistoricalData 9 "2024-05-01" :=
  (predict_no_history_soft _ (fun _ => 0) _ _ ⟨2024, 5, 1⟩ (by decide) (by decide)).1

/-- Dispatch lemma: with the gate passed and a query type that is none
of the three analytic arms, `handle_query` is the prediction arm. -/
theorem handle_query_else_eq (bot : Chatbot) (nowYear : Int) (mp : List ℚ → ℚ)
    (render : Option String) (q : String) (p : ParameterRecord)
    (hgate : gateFailsB p = false)
    (h1 : p.query_type.getD "prediction" ≠ "most_sold")
    (h2 : p.query_type.getD "prediction" ≠ "summary")
    (h3 : p.query_type.getD "prediction" ≠ "analysis") :
    handle_query bot nowYear mp render q p = predictionBranch bot mp render q p := by
  simp [handle_query, hgate, h1, h2, h3]

/-- C10: a gate-passing record whose query type is not `most_sold`,
`summary` or `analysis` — absent, `prediction`, or any other string —
is handled by the prediction arm, whose item validation applies. -/
theorem unrecognized_type_runs_prediction
    (bot : Chatbot) (nowYear : Int) (mp : List ℚ → ℚ) (render : Option String)
    (q : String) (p : ParameterRecord)
    (hgate : gateFailsB p = false)
    (hqt : p.query_type.getD "prediction" ∉ (["most_sold", "summary", "analysis"] : List String)) :
    handle_query bot nowYear mp render q p = predictionBranch bot mp render q p ∧
      (itemOkB bot p = false →
        (handle_query bot nowYear mp render q p).1 =
          .itemNotAvailable p.item_id (bot.available_items.take 10)
            (decide (bot.available_items.length > 10))) := by
  simp only [List.mem_cons, List.not_mem_nil, or_false, not_or] at hqt
  obtain ⟨h1, h2, h3⟩ := hqt
  have hmain := handle_query_else_eq bot nowYear mp render q p hgate h1 h2 h3
  refine ⟨hmain, fun hitem => ?_⟩
  rw [hmain]
  rcases hp : p.item_id with _ | i
  · simp [predictionBranch, hp]
  · have hc : bot.available_items.contains i = false := by
      simpa [itemOkB, hp] using hitem
    have hmem : i ∉ bot.available_items := by simpa using hc
    simp [predictionBranch, hp, hmem]

/-- Witness for C10: query type "forecast" with an absent item id lands
in the prediction arm and is rejected by its item validation. -/
theorem unrecognized_type_runs_prediction_witness :
    (handle_query ⟨none, [], []⟩ 2025 (fun _ => 0) none "q"
        ⟨some "forecast", none, none, none, none, none, none, some 1, [], none⟩).1 =
      .itemNotAvailable none [] false := by
  have h := unrecognized_type_runs_prediction ⟨none, [], []⟩ 2025 (fun _ => 0) none "q"
    ⟨some "forecast", none, none, none, none, none, none, some 1, [], none⟩
    (by decide) (by decide)
  exact h.2 (by decide)

/-- C2 counterexample: the empty-string date is falsy in Python, so a
gate-passing prediction record with a valid item and the non-parsing
date string "" is answered with the specify-a-date message, not the
invalid-date-format message the claim requires. -/
theorem empty_date_not_invalid_format :
    gateFailsB pEmptyDate = false ∧
      pEmptyDate.query_type = some "prediction" ∧
      pEmptyDate.item_id = some 3 ∧
      botA.available_items.contains 3 = true ∧
      pEmptyDate.date = some "" ∧
      parseYMD "".toList = none ∧
      handle_query botA 2025 (fun _ => 0) none "q" pEmptyDate = (.missingDate, [], []) ∧
      BotResponse.missingDate ≠ .invalidDateFormatMsg := by
  decide

/-- C2 amended: a gate-passing prediction-armed record with an unknown
(or absent) item id is rejected before any operation runs with a sample
of at most 10 valid ids; with a valid item and a non-empty date string
that does not parse as YYYY-MM-DD it is answered with the
invalid-date-format message, with no operation invoked in either case
(empty trace); an absent or empty date yields the specify-a-date
message instead. -/
theorem prediction_validation_rejects
    (bot : Chatbot) (nowYear : Int) (mp : List ℚ → ℚ) (render : Option String)
    (q : String) (p : ParameterRecord)
    (hgate : gateFailsB p = false)
    (hqt : p.query_type.getD "prediction" ∉ (["most_sold", "summary", "analysis"] : List String)) :
    (itemOkB bot p = false →
      handle_query bot nowYear mp render q p =
        (.itemNotAvailable p.item_id (bot.available_items.take 10)
          (decide (bot.available_items.length > 10)), [], bot.conversation_history) ∧
      (bot.available_items.take 10).length ≤ 10) ∧
    (∀ i d, p.item_id = some i → bot.available_items.contains i = true →
      p.date = some d → d ≠ "" → parseYMD d.toList = none →
      handle_query bot nowYear mp render q p =
        (.invalidDateFormatMsg, [], bot.conversation_history)) ∧
    (∀ i, p.item_id = some i → bot.available_items.contains i = true →
      (p.date = none ∨ p.date = some "") →
      handle_query bot nowYear mp render q p =
        (.missingDate, [], bot.conversation_history)) := by
  simp only [List.mem_cons, List.not_mem_nil, or_false, not_or] at hqt
  obtain ⟨h1, h2, h3⟩ := hqt
  have hmain := handle_query_else_eq bot nowYear mp render q p hgate h1 h2 h3
  refine ⟨fun hitem => ⟨?_, ?_⟩, fun i d hi hc hd hne hparse => ?_, fun i hi hc hd => ?_⟩
  · rw [hmain]
    rcases hp : p.item_id with _ | i
    · simp [predictionBranch, hp]
    · have hc : bot.available_items.contains i = false := by
        simpa [itemOkB, hp] using hitem
      have hmem : i ∉ bot.available_items := by simpa using hc
      simp [predictionBranch, hp, hmem]
  · rw [List.length_take]
    omega
  · rw [hmain]
    have hmem : i ∈ bot.available_items := by simpa using hc
    have hparse2 : parseYMD d.data = none := hparse
    simp [predictionBranch, hi, hmem, hd, hne, hparse2]
  · rw [hmain]
    have hmem : i ∈ bot.available_items := by simpa using hc
    rcases hd with hd | hd <;> simp [predictionBranch, hi, hmem, hd]

/-- Witness for C2 (amended): a non-empty, non-parsing date with a
valid item yields the invalid-date-format response and an empty trace. -/
theorem prediction_validation_rejects_witness :
    handle_query botA 2025 (fun _ => 0) none "q" pBadDate =
      (.invalidDateFormatMsg, [], []) := by
  have h := prediction_validation_rejects botA 2025 (fun _ => 0) none "q" pBadDate
    (by decide) (by decide)
  exact h.2.1 3 "05/2024" rfl (by decide) rfl (by decide) (by decide)

/-- History lemma: the new history is the old one with exactly the
prediction turn appended when the prediction arm completes, and the old
one unchanged otherwise. -/
theorem handle_query_hist_split
    (bot : Chatbot) (nowYear : Int) (mp : List ℚ → ℚ) (render : Option String)
    (q : String) (p : ParameterRecord) :
    (handle_query bot nowYear mp render q p).2.2 =
      if executesPredictionB bot p then
        bot.conversation_history ++ [theTurn bot mp render q p]
      else bot.conversation_history := by
  by_cases hg : gateFailsB p
  · simp [handle_query, executesPredictionB, hg]
  · by_cases h1 : p.query_type.getD "prediction" = "most_sold"
    · simp [handle_query, executesPredictionB, hg, h1]
    · by_cases h2 : p.query_type.getD "prediction" = "summary"
      · simp [handle_query, executesPredictionB, hg, h1, h2]
      · by_cases h3 : p.query_type.getD "prediction" = "analysis"
        · simp [handle_query, executesPredictionB, hg, h1, h2, h3]
        · rw [handle_query_else_eq bot nowYear mp render q p (by simpa using hg) h1 h2 h3]
          rcases hi : p.item_id with _ | i
          · simp [predictionBranch, executesPredictionB, itemOkB, hg, h1, h2, h3, hi]
          · by_cases hc : i ∈ bot.available_items
            · rcases hd : p.date with _ | d
              · simp [predictionBranch, executesPredictionB, itemOkB, dateOkB,
                  hg, h1, h2, h3, hi, hc, hd]
              · by_cases he : d = ""
                · simp [predictionBranch, executesPredictionB, itemOkB, dateOkB,
                    hg, h1, h2, h3, hi, hc, hd, he]
                · rcases hp : parseYMD d.data with _ | dt
                  · simp [predictionBranch, executesPredictionB, itemOkB, dateOkB,
                      hg, h1, h2, h3, hi, hc, hd, he, hp, String.toList]
                  · simp [predictionBranch, executesPredictionB, itemOkB, dateOkB, theTurn,
                      hg, h1, h2, h3, hi, hc, hd, he, hp, String.toList]
            · simp [predictionBranch, executesPredictionB, itemOkB,
                hg, h1, h2, h3, hi, hc]

/-- C9: the conversation history grows by exactly the one turn
(query, parameters, result, response) precisely when the prediction arm
completes (`executesPredictionB`); every gated, validation-rejected,
`most_sold`, `summary` or `analysis` query leaves it unchanged; and the
old history is always a prefix of the new one (turns are never mutated
or removed). -/
theorem history_appends_iff_prediction
    (bot : Chatbot) (nowYear : Int) (mp : List ℚ → ℚ) (render : Option String)
    (q : String) (p : ParameterRecord) :
    (executesPredictionB bot p = true →
      (handle_query bot nowYear mp render q p).2.2 =
        bot.conversation_history ++ [theTurn bot mp render q p] ∧
      (theTurn bot mp render q p).query = q ∧
      (theTurn bot mp render q p).parameters = p ∧
      (theTurn bot mp render q p).response =
        render.getD ("Here are your prediction results: " ++
          renderPredict (theTurn bot mp render q p).result)) ∧
    (executesPredictionB bot p = false →
      (handle_query bot nowYear mp render q p).2.2 = bot.conversation_history) ∧
    bot.conversation_history <+: (handle_query bot nowYear mp render q p).2.2 := by
  refine ⟨fun h => ?_, fun h => ?_, ?_⟩
  · rw [handle_query_hist_split, if_pos h]
    exact ⟨rfl, rfl, rfl, rfl⟩
  · rw [handle_query_hist_split, if_neg (by simp [h])]
  · rw [handle_query_hist_split]
    split
    · exact List.prefix_append _ _
    · exact List.prefix_refl _

/-- Witness for C9: a completed prediction appends exactly its turn;
the same call on a `most_sold` record leaves the history unchanged. -/
theorem history_appends_iff_prediction_witness :
    (handle_query botA 2025 (fun _ => 0) none "q" pPred).2.2 =
      [] ++ [theTurn botA (fun _ => 0) none "q" pPred] :=
  ((history_appends_iff_prediction botA 2025 (fun _ => 0) none "q" pPred).1 (by decide)).1

/-- C3 counterexample: the Date Normalizer's whole-month expansion does
not expand February at all — "whole february 2024" normalizes to the
empty list, not to the 29 days of February 2024. -/
theorem normalizer_february_not_expanded :
    parseDateInput 2025 "whole february 2024".toList = [] ∧
      daysInMonthN 2024 2 = 29 ∧
      (parseDateInput 2025 "whole february 2024".toList).length ≠ daysInMonthN 2024 2 := by
  decide

/-- C3 amended: the dispatcher's month-to-dates expansion for
summary/analysis produces exactly `calendar.monthrange`'s day count per
(month, year) — 29 for February 2024, 28 for February 2023, 30/31 per
the actual calendar, never a fixed 31 — while the Date Normalizer's
whole-month expansion handles only May (31 entries, May's actual
count) and produces no dates for other months. -/
theorem month_expansion_calendar :
    (∀ (bot : Chatbot) (nowYear : Int) (p : ParameterRecord) (m : Int),
      p.month = some m → 1 ≤ m → m ≤ 12 → p.year.getD nowYear ≠ 0 →
      summaryBranch bot nowYear p =
        (get_sales_summary bot.df p.item_id
          (some (monthDatesL (p.year.getD nowYear) m.toNat
            (daysInMonthN (p.year.getD nowYear) m.toNat))), ["get_sales_summary"]) ∧
      analysisBranch bot nowYear p =
        (get_sales_summary bot.df p.item_id
          (some (monthDatesL (p.year.getD nowYear) m.toNat
            (daysInMonthN (p.year.getD nowYear) m.toNat))), ["get_sales_summary"])) ∧
    (∀ (y : Int) (m days : Nat), (monthDatesL y m days).length = days) ∧
    (∀ (y m : Int), 1 ≤ m → m ≤ 12 → daysInMonthO y m = some (daysInMonthN y m.toNat)) ∧
    (∀ y : Int, daysInMonthN y 2 = if isleap y then 29 else 28) ∧
    (∀ (y : Int) (m : Nat), m = 4 ∨ m = 6 ∨ m = 9 ∨ m = 11 → daysInMonthN y m = 30) ∧
    (∀ (y : Int) (m : Nat), m = 1 ∨ m = 3 ∨ m = 5 ∨ m = 7 ∨ m = 8 ∨ m = 10 ∨ m = 12 →
      daysInMonthN y m = 31) ∧
    daysInMonthN 2024 2 = 29 ∧ daysInMonthN 2023 2 = 28 ∧
    (∀ (bot : Chatbot) (nowYear : Int) (mp : List ℚ → ℚ) (render : Option String)
      (q : String) (p : ParameterRecord), gateFailsB p = false →
      p.query_type.getD "prediction" = "summary" →
      handle_query bot nowYear mp render q p =
        ((summaryBranch bot nowYear p).1, (summaryBranch bot nowYear p).2,
          bot.conversation_history)) ∧
    ((parseDateInput 2025 "whole may 2024".toList).length = daysInMonthN 2024 5) ∧
    (parseDateInput 2025 "whole february 2024".toList = []) := by
  refine ⟨?_, ?_, ?_, ?_, ?_, ?_, by decide, by decide, ?_, by decide, by decide⟩
  · intro bot nowYear p m hm h1 h12 hy
    have hmne : m ≠ 0 := by omega
    have hdo : daysInMonthO (p.year.getD nowYear) m =
        some (daysInMonthN (p.year.getD nowYear) m.toNat) := by
      simp [daysInMonthO, h1, h12]
    constructor
    · simp [summaryBranch, hm, hmne, hy, hdo]
    · simp [analysisBranch, hm, hmne, hy, hdo]
  · intro y m days
    simp [monthDatesL]
  · intro y m h1 h12
    simp [daysInMonthO, h1, h12]
  · intro y
    rfl
  · intro y m h
    rcases h with rfl | rfl | rfl | rfl <;> rfl
  · intro y m h
    rcases h with rfl | rfl | rfl | rfl | rfl | rfl | rfl <;> rfl
  · intro bot nowYear mp render q p hgate hqt
    have h1 : p.query_type.getD "prediction" ≠ "most_sold" := by rw [hqt]; decide
    simp [handle_query, hgate, hqt, h1]

/-- Witness for C3 (amended): a summary record for February 2024 is
dispatched with the 29-entry expansion of February 2024. -/
theorem month_expansion_calendar_witness :
    summaryBranch botA 2025 pFeb =
      (get_sales_summary botA.df none (some (monthDatesL 2024 2 29)),
        ["get_sales_summary"]) ∧
      (monthDatesL 2024 2 29).length = 29 := by
  have h := month_expansion_calendar
  constructor
  · exact (h.1 botA 2025 pFeb 2 rfl (by decide) (by decide) (by decide)).1
  · exact h.2.1 2024 2 29

theorem argsortOrd_of (a b : Int × Int) (h2 : a.2 ≤ b.2) (h1 : b.1 < a.1) :
    argsortOrd a b := by
  rcases lt_or_eq_of_le h2 with h | h
  · exact Or.inl h
  · exact Or.inr ⟨h, h1⟩

theorem argsortOrd_le (a b : Int × Int) (h : argsortOrd a b) : a.2 ≤ b.2 := by
  rcases h with h | ⟨h, _⟩
  · exact le_of_lt h
  · exact le_of_eq h

theorem insertKey_mem (x : Int) (l : List Int) :
    ∀ z ∈ insertKey x l, z = x ∨ z ∈ l := by
  induction l with
  | nil => intro z hz; simp [insertKey] at hz; exact Or.inl hz
  | cons y ys ih =>
    intro z hz
    rw [insertKey] at hz
    by_cases h1 : x < y
    · rw [if_pos h1] at hz
      rcases List.mem_cons.mp hz with rfl | hz
      · exact Or.inl rfl
      · exact Or.inr hz
    · rw [if_neg h1] at hz
      by_cases h2 : x = y
      · rw [if_pos h2] at hz
        exact Or.inr hz
      · rw [if_neg h2] at hz
        rcases List.mem_cons.mp hz with rfl | hz
        · exact Or.inr (List.mem_cons_self _ _)
        · rcases ih z hz with h | h
          · exact Or.inl h
          · exact Or.inr (List.mem_cons_of_mem _ h)

theorem insertKey_pairwise (x : Int) (l : List Int)
    (h : List.Pairwise (· < ·) l) : List.Pairwise (· < ·) (insertKey x l) := by
  induction l with
  | nil => simp [insertKey]
  | cons y ys ih =>
    rcases List.pairwise_cons.mp h with ⟨hy, hys⟩
    rw [insertKey]
    by_cases h1 : x < y
    · rw [if_pos h1]
      refine List.pairwise_cons.mpr ⟨?_, h⟩
      intro z hz
      rcases List.mem_cons.mp hz with rfl | hz
      · exact h1
      · exact lt_trans h1 (hy z hz)
    · rw [if_neg h1]
      by_cases h2 : x = y
      · rw [if_pos h2]; exact h
      · rw [if_neg h2]
        have hyx : y < x := by omega
        refine List.pairwise_cons.mpr ⟨?_, ih hys⟩
        intro z hz
        rcases insertKey_mem x ys z hz with rfl | hz
        · exact hyx
        · exact hy z hz

theorem sortedKeys_pairwise (l : List Int) :
    List.Pairwise (· < ·) (sortedKeys l) := by
  induction l with
  | nil => simp [sortedKeys]
  | cons y ys ih => exact insertKey_pairwise y _ ih

theorem sumsByItem_keys (rows : List SalesRecord) :
    List.Pairwise (fun a b => a.1 < b.1) (sumsByItem rows) := by
  rw [sumsByItem, List.pairwise_map]
  exact sortedKeys_pairwise _

theorem insertLe_mem (x : Int × Int) (l : List (Int × Int)) :
    ∀ z ∈ insertLe x l, z = x ∨ z ∈ l := by
  induction l with
  | nil => intro z hz; simp [insertLe] at hz; exact Or.inl hz
  | cons y ys ih =>
    intro z hz
    rw [insertLe] at hz
    by_cases h1 : x.2 ≤ y.2
    · rw [if_pos h1] at hz
      rcases List.mem_cons.mp hz with rfl | hz
      · exact Or.inl rfl
      · exact Or.inr hz
    · rw [if_neg h1] at hz
      rcases List.mem_cons.mp hz with rfl | hz
      · exact Or.inr (List.mem_cons_self _ _)
      · rcases ih z hz with h | h
        · exact Or.inl h
        · exact Or.inr (List.mem_cons_of_mem _ h)

theorem insertLe_pairwise (x : Int × Int) (l : List (Int × Int))
    (hkeys : ∀ z ∈ l, z.1 < x.1) (h : List.Pairwise argsortOrd l) :
    List.Pairwise argsortOrd (insertLe x l) := by
  induction l with
  | nil => simp [insertLe, List.pairwise_cons]
  | cons y ys ih =>
    rcases List.pairwise_cons.mp h with ⟨hy, hys⟩
    rw [insertLe]
    by_cases h1 : x.2 ≤ y.2
    · rw [if_pos h1]
      refine List.pairwise_cons.mpr ⟨?_, h⟩
      intro z hz
      rcases List.mem_cons.mp hz with rfl | hz
      · exact argsortOrd_of x z h1 (hkeys z (List.mem_cons_self _ _))
      · exact argsortOrd_of x z (le_trans h1 (argsortOrd_le y z (hy z hz)))
          (hkeys z (List.mem_cons_of_mem _ hz))
    · rw [if_neg h1]
      refine List.pairwise_cons.mpr ⟨?_, ih (fun z hz => hkeys z (List.mem_cons_of_mem _ hz)) hys⟩
      intro z hz
      rcases insertLe_mem x ys z hz with rfl | hz
      · exact Or.inl (by omega)
      · exact hy z hz

theorem isortByVal_mem (l : List (Int × Int)) :
    ∀ z ∈ isortByVal l, z ∈ l := by
  induction l with
  | nil => intro z hz; simp [isortByVal] at hz
  | cons y ys ih =>
    intro z hz
    rw [isortByVal] at hz
    rcases insertLe_mem y _ z hz with rfl | hz
    · exact List.mem_cons_self _ _
    · exact List.mem_cons_of_mem _ (ih z hz)

theorem isortByVal_pairwise (l : List (Int × Int))
    (hl : List.Pairwise (fun a b => b.1 < a.1) l) :
    List.Pairwise argsortOrd (isortByVal l) := by
  induction l with
  | nil => simp [isortByVal]
  | cons y ys ih =>
    rcases List.pairwise_cons.mp hl with ⟨hy, hys⟩
    rw [isortByVal]
    exact insertLe_pairwise y _ (fun z hz => hy z (isortByVal_mem ys z hz)) (ih hys)

/-- The ranked series is totally ordered by summed quantity descending
with ties in ASCENDING item-id order (stable `nargsort` over the
ascending groupby index). -/
theorem rankedItems_sorted (rows : List SalesRecord) :
    List.Pairwise rankOrd (rankedItems rows) := by
  rw [rankedItems, sortDescByVal, List.pairwise_reverse]
  refine List.Pairwise.imp ?_ (isortByVal_pairwise _ ?_)
  · intro a b hab
    rcases hab with h | ⟨h, h1⟩
    · exact Or.inl h
    · exact Or.inr ⟨h.symm, h1⟩
  · rw [List.pairwise_reverse]
    exact sumsByItem_keys rows

/-- C4: the most-sold ranking is a deterministic pure function of the
filtered data whose output is a total order with summed quantity
primary descending and item id secondary ascending — two items with
equal totals appear in ascending item-id order — and the reported top
item and top-5 list are the head and first five entries of that
ranking, identical on every run. -/
theorem most_sold_ranking_total_order (rows : List SalesRecord)
    (period : Option String) (month year : Option Int)
    (t tot : Int) (l : List (Int × Int)) (pd : String)
    (h : find_most_sold_item (some rows) period month year = .mostSold t tot l pd) :
    l = (rankedItems (filterByYear (filterByMonth rows month) year)).take 5 ∧
      List.Pairwise rankOrd l ∧
      l.head? = some (t, tot) ∧
      find_most_sold_item (some rows) period month year =
        find_most_sold_item (some rows) period month year := by
  simp only [find_most_sold_item] at h
  by_cases hf : filterByYear (filterByMonth rows month) year = []
  · rw [if_pos hf] at h
    exact absurd h (by simp)
  · rw [if_neg hf] at h
    rcases hr : rankedItems (filterByYear (filterByMonth rows month) year) with _ | ⟨⟨ti, ts⟩, rest⟩
    · rw [hr] at h
      exact absurd h (by simp)
    · rw [hr] at h
      simp only [BotResponse.mostSold.injEq] at h
      obtain ⟨ht, htot, hl, _⟩ := h
      subst ht htot hl
      refine ⟨rfl, ?_, ?_, rfl⟩
      · rw [← hr] at *
        exact (rankedItems_sorted _).sublist (List.take_sublist _ _)
      · simp

/-- Witness for C4: on a dataset where items 2 and 7 have equal totals
the ranking is [(2,5),(7,5)] — ascending ids on the tie — and item 2 is
reported as top. -/
theorem most_sold_ranking_total_order_witness :
    List.Pairwise rankOrd [((2 : Int), (5 : Int)), (7, 5)] ∧
      ([((2 : Int), (5 : Int)), (7, 5)]).head? = some (2, 5) := by
  have h := most_sold_ranking_total_order
    [sampleRow 2 2024 5 1 5, sampleRow 7 2024 5 2 5] none none none
    2 5 [(2, 5), (7, 5)] "the specified period" (by decide)
  exact ⟨h.2.1, h.2.2.1⟩

/-! ## Lemmas for the Date Normalizer (claim C5)

Digit-and-dash strings pass unchanged through lowercasing and
stripping, contain none of the month keywords, and split on dashes into
their digit groups. -/

theorem isDigitC_bounds (c : Char) (h : isDigitC c = true) :
    48 ≤ c.toNat ∧ c.toNat ≤ 57 := by
  rw [isDigitC, Bool.and_eq_true, decide_eq_true_eq, decide_eq_true_eq] at h
  exact h

theorem good_toNat_le (c : Char) (h : isDigitC c = true ∨ c = '-') :
    c.toNat ≤ 57 := by
  rcases h with h | rfl
  · exact (isDigitC_bounds c h).2
  · decide

theorem pyLowerC_id_of_good (c : Char) (h : isDigitC c = true ∨ c = '-') :
    pyLowerC c = c := by
  have := good_toNat_le c h
  rw [pyLowerC, if_neg (by omega)]

theorem map_pyLowerC_id (s : List Char) (h : ∀ c ∈ s, isDigitC c = true ∨ c = '-') :
    s.map pyLowerC = s := by
  induction s with
  | nil => rfl
  | cons c cs ih =>
    rw [List.map_cons, pyLowerC_id_of_good c (h c (List.mem_cons_self _ _)),
      ih (fun z hz => h z (List.mem_cons_of_mem _ hz))]

theorem pyIsSpace_false_of_good (c : Char) (h : isDigitC c = true ∨ c = '-') :
    pyIsSpace c = false := by
  rcases h with h | rfl
  · have := isDigitC_bounds c h
    rw [pyIsSpace]
    simp only [Bool.or_eq_false_iff, Bool.and_eq_false_iff, decide_eq_false_iff_not]
    omega
  · decide

theorem dropWhile_head_false (p : Char → Bool) (s : List Char)
    (h : ∀ c ∈ s, p c = false) : s.dropWhile p = s := by
  cases s with
  | nil => rfl
  | cons c cs => rw [List.dropWhile_cons, h c (List.mem_cons_self _ _)]; simp

theorem pyStrip_id_of_good (s : List Char)
    (h : ∀ c ∈ s, isDigitC c = true ∨ c = '-') : pyStrip s = s := by
  have hsp : ∀ c ∈ s, pyIsSpace c = false := fun c hc => pyIsSpace_false_of_good c (h c hc)
  rw [pyStrip, dropWhile_head_false _ _ hsp,
    dropWhile_head_false _ _ (fun c hc => hsp c (List.mem_reverse.mp hc)),
    List.reverse_reverse]

theorem startsWith_head (c : Char) (cs s : List Char)
    (h : startsWith (c :: cs) s = true) : ∃ t, s = c :: t := by
  cases s with
  | nil => exact absurd h (by simp [startsWith])
  | cons d ds =>
    rw [startsWith, Bool.and_eq_true, decide_eq_true_eq] at h
    exact ⟨ds, by rw [h.1]⟩

theorem containsB_head_mem (c : Char) (cs s : List Char)
    (h : containsB (c :: cs) s = true) : c ∈ s := by
  induction s with
  | nil => exact absurd h (by simp [containsB, startsWith])
  | cons d ds ih =>
    rw [containsB, Bool.or_eq_true] at h
    rcases h with h | h
    · rcases startsWith_head c cs _ h with ⟨t, ht⟩
      rw [List.cons.injEq] at ht
      rw [ht.1]
      exact List.mem_cons_self _ _
    · exact List.mem_cons_of_mem _ (ih h)

theorem containsB_false_of_le (w : Char) (ws s : List Char)
    (hw : 57 < w.toNat) (hs : ∀ c ∈ s, c.toNat ≤ 57) :
    containsB (w :: ws) s = false := by
  by_contra h
  have h2 : containsB (w :: ws) s = true := by
    cases hb : containsB (w :: ws) s
    · exact absurd hb h
    · rfl
  have := hs w (containsB_head_mem w ws s h2)
  omega

theorem splitDash_ne_nil (s : List Char) : splitDash s ≠ [] := by
  cases s with
  | nil => simp [splitDash]
  | cons c cs =>
    rw [splitDash]
    rcases h : splitDash cs with _ | ⟨p, ps⟩
    · simp
    · by_cases hc : c = '-' <;> simp [hc]

theorem splitDash_append (a : List Char) (rest : List Char)
    (ha : ∀ c ∈ a, c ≠ '-') :
    splitDash (a ++ '-' :: rest) = a :: splitDash rest := by
  induction a with
  | nil =>
    rcases h : splitDash rest with _ | ⟨p, ps⟩
    · exact absurd h (splitDash_ne_nil rest)
    · simp [splitDash, h]
  | cons c cs ih =>
    have hc : c ≠ '-' := ha c (List.mem_cons_self _ _)
    have ih2 := ih (fun z hz => ha z (List.mem_cons_of_mem _ hz))
    simp [splitDash, ih2, hc]

theorem splitDash_nodash (a : List Char) (ha : ∀ c ∈ a, c ≠ '-') :
    splitDash a = [a] := by
  induction a with
  | nil => rfl
  | cons c cs ih =>
    have hc : c ≠ '-' := ha c (List.mem_cons_self _ _)
    simp [splitDash, ih (fun z hz => ha z (List.mem_cons_of_mem _ hz)), hc]

theorem digit_ne_dash (c : Char) (h : isDigitC c = true) : c ≠ '-' := by
  intro hc
  have := isDigitC_bounds c h
  rw [hc] at this
  simp at this

theorem takeDigits_all (p : List Char) (s : List Char)
    (hp : ∀ c ∈ p, isDigitC c = true) :
    takeDigits p.length (p ++ s) = some s := by
  induction p with
  | nil => rfl
  | cons c cs ih =>
    rw [List.length_cons, List.cons_append, takeDigits,
      if_pos (hp c (List.mem_cons_self _ _))]
    exact ih (fun z hz => hp z (List.mem_cons_of_mem _ hz))

theorem dmyShape_true (dc mc yc : List Char)
    (hdd : ∀ c ∈ dc, isDigitC c = true) (hmd : ∀ c ∈ mc, isDigitC c = true)
    (hyd : ∀ c ∈ yc, isDigitC c = true) (hyl : yc.length = 4) :
    dmyShape dc.length mc.length (dc ++ '-' :: (mc ++ '-' :: yc)) = true := by
  have h1 : takeDigits dc.length (dc ++ '-' :: (mc ++ '-' :: yc)) =
      some ('-' :: (mc ++ '-' :: yc)) := takeDigits_all dc _ hdd
  have h2 : takeDigits mc.length (mc ++ '-' :: yc) = some ('-' :: yc) :=
    takeDigits_all mc _ hmd
  have h3 : takeDigits 4 yc = some [] := by
    rw [← hyl, ← List.append_nil yc]
    have := takeDigits_all yc [] hyd
    simpa using this
  simp [dmyShape, expectDash, h1, h2, h3]

theorem natToChars_year_facts (y : Nat) (h1 : 1000 ≤ y) (h2 : y ≤ 9999) :
    (natToChars y).length = 4 ∧ (∀ c ∈ natToChars y, isDigitC c = true) ∧
      natVal (natToChars y) = y := by
  have b1 : y / 1000 < 10 := by omega
  have b2 : y / 100 % 10 < 10 := by omega
  have b3 : y / 10 % 10 < 10 := by omega
  have b4 : y % 10 < 10 := by omega
  rw [natToChars_eq_four y h1 (by omega)]
  refine ⟨rfl, ?_, ?_⟩
  · intro c hc
    simp only [List.mem_cons, List.not_mem_nil, or_false] at hc
    rcases hc with rfl | rfl | rfl | rfl
    · exact isDigitC_digitChar _ b1
    · exact isDigitC_digitChar _ b2
    · exact isDigitC_digitChar _ b3
    · exact isDigitC_digitChar _ b4
  · simp only [natVal, List.foldl]
    rw [digitChar_toNat _ b1, digitChar_toNat _ b2, digitChar_toNat _ b3,
      digitChar_toNat _ b4]
    omega

theorem natToChars_small_facts (n : Nat) (h1 : 1 ≤ n) (h2 : n ≤ 99) :
    ((natToChars n).length = 1 ∨ (natToChars n).length = 2) ∧
      (∀ c ∈ natToChars n, isDigitC c = true) ∧
      (zfill 2 (natToChars n)).length = 2 ∧
      (∀ c ∈ zfill 2 (natToChars n), isDigitC c = true) ∧
      natVal (zfill 2 (natToChars n)) = n := by
  by_cases h : n < 10
  · rw [natToChars_eq_one n h1 h]
    have hz : zfill 2 [digitChar n] = ['0', digitChar n] := rfl
    rw [hz]
    refine ⟨Or.inl rfl, ?_, rfl, ?_, ?_⟩
    · intro c hc
      simp only [List.mem_singleton] at hc
      subst hc
      exact isDigitC_digitChar _ h
    · intro c hc
      simp only [List.mem_cons, List.not_mem_nil, or_false] at hc
      rcases hc with rfl | rfl
      · decide
      · exact isDigitC_digitChar _ h
    · simp only [natVal, List.foldl]
      rw [digitChar_toNat _ h, show '0'.toNat = 48 from rfl]
      omega
  · have hn10 : 10 ≤ n := by omega
    rw [natToChars_eq_two n hn10 (by omega)]
    have b1 : n / 10 < 10 := by omega
    have b2 : n % 10 < 10 := by omega
    have hz : zfill 2 [digitChar (n / 10), digitChar (n % 10)]
        = [digitChar (n / 10), digitChar (n % 10)] := rfl
    rw [hz]
    have hdig : ∀ c ∈ [digitChar (n / 10), digitChar (n % 10)], isDigitC c = true := by
      intro c hc
      simp only [List.mem_cons, List.not_mem_nil, or_false] at hc
      rcases hc with rfl | rfl
      · exact isDigitC_digitChar _ b1
      · exact isDigitC_digitChar _ b2
    refine ⟨Or.inr rfl, hdig, rfl, hdig, ?_⟩
    simp only [natVal, List.foldl]
    rw [digitChar_toNat _ b1, digitChar_toNat _ b2]
    omega

theorem matchDMY_true (dc mc yc : List Char)
    (hdl : dc.length = 1 ∨ dc.length = 2) (hml : mc.length = 1 ∨ mc.length = 2)
    (hdd : ∀ c ∈ dc, isDigitC c = true) (hmd : ∀ c ∈ mc, isDigitC c = true)
    (hyd : ∀ c ∈ yc, isDigitC c = true) (hyl : yc.length = 4) :
    matchDMY (dc ++ '-' :: (mc ++ '-' :: yc)) = true := by
  have hs := dmyShape_true dc mc yc hdd hmd hyd hyl
  rcases hdl with h1 | h1 <;> rcases hml with h2 | h2 <;>
    rw [h1, h2] at hs <;> simp [matchDMY, hs]

theorem matchDMY_false_fourdigits (a b c e : Char) (rest : List Char)
    (ha : isDigitC a = true) (hb : isDigitC b = true) (hc : isDigitC c = true) :
    matchDMY (a :: b :: c :: e :: rest) = false := by
  have hbn : b ≠ '-' := digit_ne_dash b hb
  have hcn : c ≠ '-' := digit_ne_dash c hc
  simp [matchDMY, dmyShape, takeDigits, expectDash, ha, hb, hbn, hcn]

/-- The `D-M-YYYY` branch of `_parse_date_input`: any 1-2 digit day
group, 1-2 digit month group and 4 digit year group joined by dashes is
reassembled day-first into the canonical `YYYY-MM-DD` form with
zero-filled month and day. -/
theorem parseDateInput_dmy (nowYear : Nat) (dc mc yc : List Char)
    (hdl : dc.length = 1 ∨ dc.length = 2) (hml : mc.length = 1 ∨ mc.length = 2)
    (hyl : yc.length = 4)
    (hdd : ∀ c ∈ dc, isDigitC c = true) (hmd : ∀ c ∈ mc, isDigitC c = true)
    (hyd : ∀ c ∈ yc, isDigitC c = true) :
    parseDateInput nowYear (dc ++ '-' :: (mc ++ '-' :: yc)) =
      [yc ++ '-' :: (zfill 2 mc ++ '-' :: zfill 2 dc)] := by
  have hgood : ∀ ch ∈ dc ++ '-' :: (mc ++ '-' :: yc), isDigitC ch = true ∨ ch = '-' := by
    intro ch hch
    simp only [List.mem_append, List.mem_cons] at hch
    rcases hch with hch | rfl | hch | rfl | hch
    · exact Or.inl (hdd ch hch)
    · exact Or.inr rfl
    · exact Or.inl (hmd ch hch)
    · exact Or.inr rfl
    · exact Or.inl (hyd ch hch)
  have hne : dc ++ '-' :: (mc ++ '-' :: yc) ≠ [] := by simp
  have hlower : (dc ++ '-' :: (mc ++ '-' :: yc)).map pyLowerC = dc ++ '-' :: (mc ++ '-' :: yc) :=
    map_pyLowerC_id _ hgood
  have hstrip : pyStrip (dc ++ '-' :: (mc ++ '-' :: yc)) = dc ++ '-' :: (mc ++ '-' :: yc) :=
    pyStrip_id_of_good _ hgood
  have hle : ∀ ch ∈ dc ++ '-' :: (mc ++ '-' :: yc), ch.toNat ≤ 57 :=
    fun ch hch => good_toNat_le ch (hgood ch hch)
  have hmay : containsB "may".toList (dc ++ '-' :: (mc ++ '-' :: yc)) = false := by
    rw [show "may".toList = 'm' :: ['a', 'y'] from rfl]
    exact containsB_false_of_le _ _ _ (by decide) hle
  have hmatch : matchDMY (dc ++ '-' :: (mc ++ '-' :: yc)) = true :=
    matchDMY_true dc mc yc hdl hml hdd hmd hyd hyl
  have hsplit : splitDash (dc ++ '-' :: (mc ++ '-' :: yc)) = [dc, mc, yc] := by
    rw [splitDash_append dc _ (fun z hz => digit_ne_dash z (hdd z hz)),
      splitDash_append mc _ (fun z hz => digit_ne_dash z (hmd z hz)),
      splitDash_nodash yc (fun z hz => digit_ne_dash z (hyd z hz))]
  rw [parseDateInput, if_neg hne]
  simp only [hlower, hstrip, hmay, hmatch, hsplit, Bool.and_false, if_false,
    Bool.false_eq_true, if_true]

theorem allDigits_of (s : List Char) (h : ∀ c ∈ s, isDigitC c = true) :
    allDigits s = true := by
  rw [allDigits, List.all_eq_true]
  exact h

/-- `strptime("%Y-%m-%d")` accepts the canonical zero-padded string of
a valid calendar date and returns exactly that date. -/
theorem parseYMD_canonical (y m d : Nat)
    (hy1 : 1000 ≤ y) (hy2 : y ≤ 9999) (hm1 : 1 ≤ m) (hm2 : m ≤ 12)
    (hd1 : 1 ≤ d) (hd2 : d ≤ 31) (hday : d ≤ daysInMonthN (y : Int) m) :
    parseYMD (natToChars y ++ '-' :: (zfill 2 (natToChars m) ++ '-' :: zfill 2 (natToChars d))) =
      some ⟨y, m, d⟩ := by
  obtain ⟨hyl, hyd, hyv⟩ := natToChars_year_facts y hy1 hy2
  obtain ⟨-, -, hml2, hmd2, hmv⟩ := natToChars_small_facts m hm1 (by omega)
  obtain ⟨-, -, hdl2, hdd2, hdv⟩ := natToChars_small_facts d hd1 (by omega)
  have hsplit : splitDash (natToChars y ++ '-' ::
      (zfill 2 (natToChars m) ++ '-' :: zfill 2 (natToChars d))) =
      [natToChars y, zfill 2 (natToChars m), zfill 2 (natToChars d)] := by
    rw [splitDash_append _ _ (fun z hz => digit_ne_dash z (hyd z hz)),
      splitDash_append _ _ (fun z hz => digit_ne_dash z (hmd2 z hz)),
      splitDash_nodash _ (fun z hz => digit_ne_dash z (hdd2 z hz))]
  simp only [parseYMD, hsplit]
  rw [if_pos (by
    simp only [Bool.and_eq_true, Bool.or_eq_true, decide_eq_true_eq]
    refine ⟨⟨⟨⟨⟨hyl, allDigits_of _ hyd⟩, Or.inr hml2⟩, allDigits_of _ hmd2⟩,
      Or.inr hdl2⟩, allDigits_of _ hdd2⟩)]
  rw [if_pos (by
    simp only [Bool.and_eq_true, decide_eq_true_eq, hyv, hmv, hdv]
    refine ⟨⟨⟨⟨by omega, hm1⟩, hm2⟩, hd1⟩, hday⟩)]
  simp only [hyv, hmv, hdv]

theorem formatDate_canonical (y m d : Nat) (hy1 : 1000 ≤ y) (hy2 : y ≤ 9999) :
    formatDate ⟨y, m, d⟩ =
      natToChars y ++ '-' :: (zfill 2 (natToChars m) ++ '-' :: zfill 2 (natToChars d)) := by
  obtain ⟨hyl, -, -⟩ := natToChars_year_facts y hy1 hy2
  rw [formatDate]
  rw [show zfill 4 (natToChars y) = natToChars y by rw [zfill, hyl]; rfl]

/-- The strict `YYYY-MM-DD` branch of `_parse_date_input`: the canonical
zero-padded string of a valid calendar date falls past the month-name
and `D-M-YYYY` branches and is parsed by `strptime` and reformatted to
itself. -/
theorem parseDateInput_canonical (nowYear : Nat) (y m d : Nat)
    (hy1 : 1000 ≤ y) (hy2 : y ≤ 9999) (hm1 : 1 ≤ m) (hm2 : m ≤ 12)
    (hd1 : 1 ≤ d) (hd2 : d ≤ 31) (hday : d ≤ daysInMonthN (y : Int) m) :
    parseDateInput nowYear
        (natToChars y ++ '-' :: (zfill 2 (natToChars m) ++ '-' :: zfill 2 (natToChars d))) =
      [natToChars y ++ '-' :: (zfill 2 (natToChars m) ++ '-' :: zfill 2 (natToChars d))] := by
  obtain ⟨hyl, hyd, hyv⟩ := natToChars_year_facts y hy1 hy2
  obtain ⟨-, -, hml2, hmd2, hmv⟩ := natToChars_small_facts m hm1 (by omega)
  obtain ⟨-, -, hdl2, hdd2, hdv⟩ := natToChars_small_facts d hd1 (by omega)
  have hgood : ∀ ch ∈ natToChars y ++ '-' ::
      (zfill 2 (natToChars m) ++ '-' :: zfill 2 (natToChars d)),
      isDigitC ch = true ∨ ch = '-' := by
    intro ch hch
    simp only [List.mem_append, List.mem_cons] at hch
    rcases hch with hch | rfl | hch | rfl | hch
    · exact Or.inl (hyd ch hch)
    · exact Or.inr rfl
    · exact Or.inl (hmd2 ch hch)
    · exact Or.inr rfl
    · exact Or.inl (hdd2 ch hch)
  have hne : natToChars y ++ '-' ::
      (zfill 2 (natToChars m) ++ '-' :: zfill 2 (natToChars d)) ≠ [] := by simp
  have hlower := map_pyLowerC_id _ hgood
  have hstrip := pyStrip_id_of_good _ hgood
  have hle : ∀ ch ∈ natToChars y ++ '-' ::
      (zfill 2 (natToChars m) ++ '-' :: zfill 2 (natToChars d)), ch.toNat ≤ 57 :=
    fun ch hch => good_toNat_le ch (hgood ch hch)
  have hmay : containsB "may".toList (natToChars y ++ '-' ::
      (zfill 2 (natToChars m) ++ '-' :: zfill 2 (natToChars d))) = false := by
    rw [show "may".toList = 'm' :: ['a', 'y'] from rfl]
    exact containsB_false_of_le _ _ _ (by decide) hle
  have hmatchF : matchDMY (natToChars y ++ '-' ::
      (zfill 2 (natToChars m) ++ '-' :: zfill 2 (natToChars d))) = false := by
    have hb1 : y / 1000 < 10 := by omega
    have hb2 : y / 100 % 10 < 10 := by omega
    have hb3 : y / 10 % 10 < 10 := by omega
    rw [natToChars_eq_four y hy1 (by omega), List.cons_append, List.cons_append,
      List.cons_append, List.cons_append, List.nil_append]
    exact matchDMY_false_fourdigits _ _ _ _ _
      (isDigitC_digitChar _ hb1) (isDigitC_digitChar _ hb2) (isDigitC_digitChar _ hb3)
  rw [parseDateInput, if_neg hne]
  simp only [hlower, hstrip, hmay, hmatchF, Bool.and_false, if_false, Bool.false_eq_true,
    if_true, strptimeStep, parseYMD_canonical y m d hy1 hy2 hm1 hm2 hd1 hd2 hday,
    formatDate_canonical y m d hy1 hy2]

/-- C5: for every calendar day D, month M and four-digit year Y, the
Date Normalizer maps the numeric string "D-M-YYYY" day-first to the
single canonical string "YYYY-MM-DD", and maps that canonical string to
itself — so the two phrasings of the same calendar date normalize
identically. -/
theorem dmy_day_first_agrees (nowYear : Nat) (d m y : Nat)
    (hd1 : 1 ≤ d) (hd31 : d ≤ 31) (hm1 : 1 ≤ m) (hm12 : m ≤ 12)
    (hy1 : 1000 ≤ y) (hy2 : y ≤ 9999) (hday : d ≤ daysInMonthN (y : Int) m) :
    parseDateInput nowYear (natToChars d ++ '-' :: (natToChars m ++ '-' :: natToChars y)) =
      [natToChars y ++ '-' :: (zfill 2 (natToChars m) ++ '-' :: zfill 2 (natToChars d))] ∧
    parseDateInput nowYear
        (natToChars y ++ '-' :: (zfill 2 (natToChars m) ++ '-' :: zfill 2 (natToChars d))) =
      [natToChars y ++ '-' :: (zfill 2 (natToChars m) ++ '-' :: zfill 2 (natToChars d))] := by
  obtain ⟨hyl, hyd, -⟩ := natToChars_year_facts y hy1 hy2
  obtain ⟨hml, hmd, -, -, -⟩ := natToChars_small_facts m hm1 (by omega)
  obtain ⟨hdl, hdd, -, -, -⟩ := natToChars_small_facts d hd1 (by omega)
  exact ⟨parseDateInput_dmy nowYear _ _ _ hdl hml hyl hdd hmd hyd,
    parseDateInput_canonical nowYear y m d hy1 hy2 hm1 hm12 hd1 hd31 hday⟩

/-- Witness for C5: "4-5-2024" and "2024-05-04" both normalize to
"2024-05-04". -/
theorem dmy_day_first_agrees_witness :
    parseDateInput 2025 "4-5-2024".toList = ["2024-05-04".toList] ∧
      parseDateInput 2025 "2024-05-04".toList = ["2024-05-04".toList] := by
  have e1 : "4-5-2024".toList =
      natToChars 4 ++ '-' :: (natToChars 5 ++ '-' :: natToChars 2024) := by decide
  have e2 : "2024-05-04".toList =
      natToChars 2024 ++ '-' :: (zfill 2 (natToChars 5) ++ '-' :: zfill 2 (natToChars 4)) := by
    decide
  have h := dmy_day_first_agrees 2025 4 5 2024 (by decide) (by decide) (by decide)
    (by decide) (by decide) (by decide) (by decide)
  rw [e1, e2]
  exact h

end SalesBot
